import Mathlib

/-!
Verification development for the movie-recommendation CLI (src/main.py).

The program is embedded shallowly:

* A pandas DataFrame row becomes a `MovieRecord`.  The `Genre` and
  `Overview` cells may be missing (`NaN` after `pd.read_csv`; an empty CSV
  cell is loaded as `NaN`), which we model with `Option String`.
  `IMDB_Rating` is always present (the dataset invariant) and float
  arithmetic in the program is restricted to comparisons and one
  multiplication sign test, so ratings and sentiment polarities are
  modelled exactly as rationals.
* `TextBlob(...).sentiment.polarity` is an external sentiment model; it is
  passed in as an arbitrary function `score : String → ℚ`.
* `filtered_df.sample(frac=1)` (the shuffle) is passed in as a function
  `shuffle`; theorems that need it assume `shuffle l` is a permutation of
  `l`, exactly the guarantee `sample(frac=1)` provides.
* `pandas.Series.str.contains(genre, case=False, na=False)` is modelled as
  case-insensitive substring containment (`na=False` sends a missing cell
  to `False`).  The genre strings of this program come from the genre
  catalog and contain no regular-expression metacharacters, for which
  `re.search` coincides with substring search.
* The interactive loops of `handle_ai` consume a list of input lines; an
  exhausted list models a session in which the loop never accepted.
-/

namespace MovieRec

/-- A row of the movies DataFrame: `Series_Title`, `Genre`, `Overview`,
`IMDB_Rating`.  `none` models a `NaN` cell (`pd.read_csv` loads an empty
cell as `NaN`). -/
structure MovieRecord where
  title : String
  genre : Option String
  overview : Option String
  rating : ℚ
deriving DecidableEq, Repr

/-- Python truthiness of an optional string: `None` and `""` are falsy. -/
def truthy : Option String → Bool
  | none => false
  | some s => !(s = "")

/-- Python truthiness of an optional float: `None` and `0.0` are falsy. -/
def truthyQ : Option ℚ → Bool
  | none => false
  | some r => !(r = 0)

/-- ASCII lower-casing of a string, character by character (`str.lower`
for the ASCII strings this program manipulates). -/
def lowerStr (s : String) : String := ⟨s.data.map Char.toLower⟩

/-- Boolean prefix test on character lists. -/
def isPrefixList : List Char → List Char → Bool
  | [], _ => true
  | _ :: _, [] => false
  | a :: as, b :: bs => a = b && isPrefixList as bs

/-- Boolean substring (contiguous sublist) test on character lists. -/
def isInfixList (p : List Char) : List Char → Bool
  | [] => p.isEmpty
  | c :: rest => isPrefixList p (c :: rest) || isInfixList p rest

/-- The test `filtered_df['Genre'].str.contains(genre, case=False,
na=False)` applied to one record: case-insensitive substring containment,
with a missing genre cell giving `False` (the `na=False` argument). -/
def genreMatch (g : String) (r : MovieRecord) : Bool :=
  match r.genre with
  | none => false
  | some s => isInfixList (lowerStr g).data (lowerStr s).data

/-- Lines 55-58 of main.py: `if genre: filtered_df = filtered_df[...]`. -/
def applyGenreFilter (genre : Option String) (l : List MovieRecord) :
    List MovieRecord :=
  if truthy genre then l.filter (fun r => genreMatch (genre.getD "") r) else l

/-- Lines 59-60 of main.py: `if rating: filtered_df =
filtered_df[filtered_df['IMDB_Rating'] >= rating]`. -/
def applyRatingFilter (rating : Option ℚ) (l : List MovieRecord) :
    List MovieRecord :=
  if truthyQ rating then l.filter (fun r => decide (rating.getD 0 ≤ r.rating))
  else l

/-- Line 66 of main.py: `mood_polarity = TextBlob(mood).sentiment.polarity
if mood else None`. -/
def moodPolarityOf (score : String → ℚ) (mood : Option String) : Option ℚ :=
  if truthy mood then some (score (mood.getD "")) else none

/-- Line 76 of main.py: `if not mood or (mood_polarity * polarity > 0) or
polarity == 0`.  When the mood is falsy, `mood_polarity` is `None` and the
product is never evaluated (short circuit); `getD 0` supplies a dummy value
for that dead branch. -/
def includeCond (mood : Option String) (mood_polarity : Option ℚ)
    (polarity : ℚ) : Bool :=
  !(truthy mood) || decide (mood_polarity.getD 0 * polarity > 0) ||
    decide (polarity = 0)

/-- Lines 68-80 of main.py, the collection loop over the shuffled rows.
`count` carries `len(recommendations)`; a row with a missing overview is
skipped by `continue` before the `break` test, and the `break` fires when
`len(recommendations) == top_n` after the optional append. -/
def recLoop (score : String → ℚ) (mood : Option String)
    (mood_polarity : Option ℚ) (top_n : ℤ) :
    ℤ → List MovieRecord → List (String × ℚ)
  | _, [] => []
  | count, row :: rest =>
    match row.overview with
    | none => recLoop score mood mood_polarity top_n count rest
    | some overview =>
      if includeCond mood mood_polarity (score overview) then
        (row.title, score overview) ::
          (if count + 1 = top_n then []
           else recLoop score mood mood_polarity top_n (count + 1) rest)
      else
        if count = top_n then []
        else recLoop score mood mood_polarity top_n count rest

/-- Result of `recommend_movies`: either the list of `(Series_Title,
polarity)` pairs, or the `"No suitable movie recommendations found."`
string returned when the list is empty. -/
inductive RecResult where
  | recs (l : List (String × ℚ))
  | empty
deriving DecidableEq, Repr

/-- Lines 52-82 of main.py (`recommend_movies`), with the sentiment model
and the shuffle passed in as functions. -/
def recommend_movies (score : String → ℚ)
    (shuffle : List MovieRecord → List MovieRecord)
    (dataset : List MovieRecord) (genre : Option String)
    (mood : Option String) (rating : Option ℚ) (top_n : ℤ) : RecResult :=
  let filtered := applyRatingFilter rating (applyGenreFilter genre dataset)
  let shuffled := shuffle filtered
  let recommendations :=
    recLoop score mood (moodPolarityOf score mood) top_n 0 shuffled
  if recommendations = [] then RecResult.empty
  else RecResult.recs recommendations

/-- The per-record contribution of the collection loop: `none` for a
skipped or rejected row, `some (title, polarity)` for an appended one. -/
def recProj (score : String → ℚ) (mood : Option String)
    (mood_polarity : Option ℚ) (r : MovieRecord) : Option (String × ℚ) :=
  match r.overview with
  | none => none
  | some ov =>
    if includeCond mood mood_polarity (score ov) then
      some (r.title, score ov)
    else none

/-- The genre constraint as observed on one record: vacuous when the
constraint is falsy, otherwise the `str.contains` test. -/
def passesGenre (genre : Option String) (r : MovieRecord) : Bool :=
  !(truthy genre) || genreMatch (genre.getD "") r

/-- The rating constraint as observed on one record: vacuous when the
constraint is falsy, otherwise `IMDB_Rating >= rating`. -/
def passesRating (rating : Option ℚ) (r : MovieRecord) : Bool :=
  !(truthyQ rating) || decide (rating.getD 0 ≤ r.rating)

/-- A record matches the constraints of a `recommend_movies` call when it
survives the genre and rating filters and the collection loop would append
it: overview present and the mood condition satisfied. -/
def matchesConstraints (score : String → ℚ) (genre : Option String)
    (mood : Option String) (rating : Option ℚ) (r : MovieRecord) : Bool :=
  passesGenre genre r && passesRating rating r &&
    (recProj score mood (moodPolarityOf score mood) r).isSome

/-- Splitting a character list on the two-character separator `", "`,
exactly Python `str.split(', ')`: separators are consumed left to right,
empty pieces are kept, and the result is always non-empty. -/
def splitCommaSpace : List Char → List (List Char)
  | [] => [[]]
  | ',' :: ' ' :: rest => [] :: splitCommaSpace rest
  | c :: rest =>
    match splitCommaSpace rest with
    | [] => [[c]]
    | p :: ps => (c :: p) :: ps

/-- Python `str.strip()` on a character list: drop whitespace from both
ends. -/
def trimChars (l : List Char) : List Char :=
  ((l.dropWhile Char.isWhitespace).reverse.dropWhile Char.isWhitespace).reverse

/-- Python `str.strip()` on a string. -/
def pyStrip (s : String) : String := ⟨trimChars s.data⟩

/-- Lines 42-45 of main.py (`list_genres`): split every present `Genre`
cell on `", "`, strip each piece, deduplicate (the Python `set`), and sort.
A sorted duplicate-free sequence over a fixed set of strings is unique, so
`insertionSort` after `dedup` is exactly `sorted(set(...))`. -/
def list_genres (df : List MovieRecord) : List String :=
  List.insertionSort (· ≤ ·)
    (((df.filterMap MovieRecord.genre).flatMap
        (fun s => (splitCommaSpace s.data).map (fun p => ⟨trimChars p⟩))).dedup)

/-- Python `str.isdigit()` for ASCII input: non-empty and all digits. -/
def isDigitStr (s : String) : Bool := !s.data.isEmpty && s.data.all Char.isDigit

/-- Python `int(...)` on a string of ASCII digits. -/
def digitsToNat (l : List Char) : Nat :=
  l.foldl (fun n c => 10 * n + (c.toNat - 48)) 0

/-- An ASCII letter, the cased characters of this program's data
(`A`-`Z` or `a`-`z` by code point). -/
def isAsciiLetter (c : Char) : Bool :=
  decide ((65 ≤ c.toNat ∧ c.toNat ≤ 90) ∨ (97 ≤ c.toNat ∧ c.toNat ≤ 122))

/-- Python `str.title()` for ASCII input: a letter that follows a
non-letter is upper-cased, a letter that follows a letter is lower-cased.
The boolean argument records whether the previous character was a letter
(a cased character). -/
def titleCaseAux : Bool → List Char → List Char
  | _, [] => []
  | prevAlpha, c :: cs =>
    if isAsciiLetter c then
      (if prevAlpha then c.toLower else c.toUpper) :: titleCaseAux true cs
    else c :: titleCaseAux false cs

/-- Python `str.title()` on a string. -/
def pyTitle (s : String) : String := ⟨titleCaseAux false s.data⟩

/-- Lines 115-123 of main.py, one round of the genre prompt of
`handle_ai`: strip the line; accept a digit string that is a 1-based index
into `genres`; otherwise accept a line whose `title()`-cased form is a
catalog entry; otherwise reject (`none`, which makes the loop re-prompt). -/
def genreStep (genres : List String) (raw : String) : Option String :=
  let genre_input := pyStrip raw
  if isDigitStr genre_input = true ∧ 1 ≤ digitsToNat genre_input.data ∧
      digitsToNat genre_input.data ≤ genres.length then
    some (genres.getD (digitsToNat genre_input.data - 1) "")
  else if genres.contains (pyTitle genre_input) then some (pyTitle genre_input)
  else none

/-- The genre prompt loop of `handle_ai` over a list of input lines;
`none` when every line is rejected (the loop would still be prompting). -/
def collectGenre (genres : List String) : List String → Option String
  | [] => none
  | raw :: rest =>
    match genreStep genres raw with
    | some g => some g
    | none => collectGenre genres rest

/-- Lines 136-149 of main.py, one round of the rating prompt of
`handle_ai`: strip the line; accept `skip` (lower-cased comparison) giving
no rating constraint; otherwise parse a float (`parseFloat` models Python
`float(...)`, `none` modelling `ValueError`) and accept it when it lies in
`[7.6, 9.3]`; otherwise reject (`none`, which makes the loop re-prompt). -/
def ratingStep (parseFloat : String → Option ℚ) (raw : String) :
    Option (Option ℚ) :=
  let rating_input := pyStrip raw
  if lowerStr rating_input = "skip" then some none
  else
    match parseFloat rating_input with
    | some r =>
      if (7.6 : ℚ) ≤ r ∧ r ≤ (9.3 : ℚ) then some (some r) else none
    | none => none

/-- The rating prompt loop of `handle_ai` over a list of input lines;
`none` when every line is rejected (the loop would still be prompting). -/
def collectRating (parseFloat : String → Option ℚ) :
    List String → Option (Option ℚ)
  | [] => none
  | raw :: rest =>
    match ratingStep parseFloat raw with
    | some res => some res
    | none => collectRating parseFloat rest

/-- Record A of the three-record scenario dataset in section 8 of the
spec. -/
def dsA : MovieRecord := ⟨"A", some "Drama", some "A sad story", 8⟩

/-- Record B of the scenario dataset. -/
def dsB : MovieRecord := ⟨"B", some "Comedy", some "A happy tale", 7⟩

/-- Record C of the scenario dataset.  Its Overview cell is empty in the
CSV, and `pd.read_csv` loads an empty cell as `NaN`, hence `none`. -/
def dsC : MovieRecord := ⟨"C", some "Drama", none, 9⟩

/-! ### Lemmas about the collection loop and the two filters -/

/-- Membership in the genre-filtered list. -/
lemma mem_applyGenreFilter {genre : Option String} {l : List MovieRecord}
    {r : MovieRecord} :
    r ∈ applyGenreFilter genre l ↔ r ∈ l ∧ passesGenre genre r = true := by
  unfold applyGenreFilter passesGenre
  cases h : truthy genre <;> simp [List.mem_filter, h]

/-- Membership in the rating-filtered list. -/
lemma mem_applyRatingFilter {rating : Option ℚ} {l : List MovieRecord}
    {r : MovieRecord} :
    r ∈ applyRatingFilter rating l ↔ r ∈ l ∧ passesRating rating r = true := by
  unfold applyRatingFilter passesRating
  cases h : truthyQ rating <;> simp [List.mem_filter, h]

/-- Membership in the list handed to the shuffle: dataset membership plus
both active constraints. -/
lemma mem_filtered_iff {genre : Option String} {rating : Option ℚ}
    {dataset : List MovieRecord} {r : MovieRecord} :
    r ∈ applyRatingFilter rating (applyGenreFilter genre dataset) ↔
      r ∈ dataset ∧ passesGenre genre r = true ∧ passesRating rating r = true := by
  rw [mem_applyRatingFilter, mem_applyGenreFilter, and_assoc]

/-- When the limit can never be hit (already exceeded, or out of reach of
the number of remaining rows), the loop keeps every eligible row:
it is a `filterMap`. -/
lemma recLoop_eq_filterMap (score : String → ℚ) (mood : Option String)
    (mood_polarity : Option ℚ) (top_n : ℤ) :
    ∀ (l : List MovieRecord) (count : ℤ),
      (top_n < count ∨ count + l.length < top_n) →
      recLoop score mood mood_polarity top_n count l =
        l.filterMap (recProj score mood mood_polarity) := by
  intro l
  induction l with
  | nil => intro count _; simp [recLoop]
  | cons row rest ih =>
    intro count h
    simp only [recLoop, List.filterMap_cons]
    cases hov : row.overview with
    | none =>
      simp only [recProj, hov]
      exact ih count (by
        rcases h with h | h
        · exact Or.inl h
        · right
          simp only [List.length_cons] at h
          omega)
    | some ov =>
      simp only [recProj, hov]
      by_cases hc : includeCond mood mood_polarity (score ov) = true
      · simp only [hc, if_pos]
        have hne : ¬(count + 1 = top_n) := by
          rcases h with h | h
          · omega
          · simp only [List.length_cons] at h; omega
        rw [if_neg hne, ih (count + 1) (by
          rcases h with h | h
          · left; omega
          · right; simp only [List.length_cons] at h; omega)]
      · simp only [Bool.not_eq_true] at hc
        simp only [hc, Bool.false_eq_true, if_neg, ite_false]
        have hne : ¬(count = top_n) := by
          rcases h with h | h
          · omega
          · simp only [List.length_cons] at h; omega
        rw [if_neg hne, ih count (by
          rcases h with h | h
          · left; omega
          · right; simp only [List.length_cons] at h; omega)]

/-- The loop never collects more than `top_n - count` rows when the
current count is still below the limit. -/
lemma recLoop_length_le (score : String → ℚ) (mood : Option String)
    (mood_polarity : Option ℚ) (top_n : ℤ) :
    ∀ (l : List MovieRecord) (count : ℤ), count < top_n →
      ((recLoop score mood mood_polarity top_n count l).length : ℤ) ≤
        top_n - count := by
  intro l
  induction l with
  | nil => intro count h; simp [recLoop]; omega
  | cons row rest ih =>
    intro count h
    simp only [recLoop]
    cases hov : row.overview with
    | none => exact (ih count h).trans (by omega)
    | some ov =>
      by_cases hc : includeCond mood mood_polarity (score ov) = true
      · simp only [hc, if_pos]
        by_cases he : count + 1 = top_n
        · rw [if_pos he]; simp; omega
        · rw [if_neg he]
          have := ih (count + 1) (by omega)
          simp only [List.length_cons]; push_cast; omega
      · simp only [Bool.not_eq_true] at hc
        simp only [hc, Bool.false_eq_true, if_neg, ite_false]
        by_cases he : count = top_n
        · rw [if_pos he]; simp; omega
        · rw [if_neg he]; exact (ih count h).trans (by omega)

/-- With a non-zero limit and a zero starting count, the loop returns the
empty list exactly when no row of its input is eligible. -/
lemma recLoop_eq_nil_iff (score : String → ℚ) (mood : Option String)
    (mood_polarity : Option ℚ) {top_n : ℤ} (hn : top_n ≠ 0) :
    ∀ l : List MovieRecord,
      recLoop score mood mood_polarity top_n 0 l = [] ↔
        ∀ r ∈ l, recProj score mood mood_polarity r = none := by
  intro l
  induction l with
  | nil => simp [recLoop]
  | cons row rest ih =>
    simp only [recLoop, List.mem_cons, forall_eq_or_imp]
    cases hov : row.overview with
    | none =>
      have hhead : recProj score mood mood_polarity row = none := by
        simp [recProj, hov]
      rw [ih]
      simp [hhead]
    | some ov =>
      by_cases hc : includeCond mood mood_polarity (score ov) = true
      · have hhead : recProj score mood mood_polarity row =
            some (row.title, score ov) := by simp [recProj, hov, hc]
        simp [hc, hhead]
      · have hhead : recProj score mood mood_polarity row = none := by
          simp [recProj, hov, hc]
        simp only [hhead, eq_self_iff_true, true_and]
        rw [if_neg hc, if_neg (fun h => hn h.symm)]
        exact ih

/-- Every collected pair originates in an eligible row of the loop input. -/
lemma exists_of_mem_recLoop (score : String → ℚ) (mood : Option String)
    (mood_polarity : Option ℚ) (top_n : ℤ) :
    ∀ (l : List MovieRecord) (count : ℤ) (p : String × ℚ),
      p ∈ recLoop score mood mood_polarity top_n count l →
      ∃ r ∈ l, ∃ ov, r.overview = some ov ∧ p = (r.title, score ov) ∧
        includeCond mood mood_polarity (score ov) = true := by
  intro l
  induction l with
  | nil => intro count p hp; simp [recLoop] at hp
  | cons row rest ih =>
    intro count p hp
    cases hov : row.overview with
    | none =>
      simp only [recLoop, hov] at hp
      obtain ⟨r, hr, hrest⟩ := ih count p hp
      exact ⟨r, List.mem_cons_of_mem _ hr, hrest⟩
    | some ov =>
      simp only [recLoop, hov] at hp
      by_cases hc : includeCond mood mood_polarity (score ov) = true
      · rw [if_pos hc] at hp
        rcases List.mem_cons.mp hp with hhead | htail
        · exact ⟨row, List.mem_cons_self _ _, ov, hov, hhead, hc⟩
        · by_cases he : count + 1 = top_n
          · rw [if_pos he] at htail; simp at htail
          · rw [if_neg he] at htail
            obtain ⟨r, hr, hrest⟩ := ih (count + 1) p htail
            exact ⟨r, List.mem_cons_of_mem _ hr, hrest⟩
      · rw [if_neg hc] at hp
        by_cases he : count = top_n
        · rw [if_pos he] at hp; simp at hp
        · rw [if_neg he] at hp
          obtain ⟨r, hr, hrest⟩ := ih count p hp
          exact ⟨r, List.mem_cons_of_mem _ hr, hrest⟩

/-- The genre filter never lengthens the list. -/
lemma length_applyGenreFilter_le (genre : Option String)
    (l : List MovieRecord) : (applyGenreFilter genre l).length ≤ l.length := by
  unfold applyGenreFilter
  split
  · exact l.length_filter_le _
  · exact Nat.le_refl _

/-- The rating filter never lengthens the list. -/
lemma length_applyRatingFilter_le (rating : Option ℚ)
    (l : List MovieRecord) : (applyRatingFilter rating l).length ≤ l.length := by
  unfold applyRatingFilter
  split
  · exact l.length_filter_le _
  · exact Nat.le_refl _

/-- When the limit is negative or larger than the dataset, the `break` of
the collection loop never fires, and `recommend_movies` returns exactly
the eligible rows of the shuffled filtered list, in order (or the
`EmptyResult` outcome when there is none). -/
lemma recommend_movies_no_trunc (score : String → ℚ)
    (shuffle : List MovieRecord → List MovieRecord)
    (dataset : List MovieRecord) (genre : Option String)
    (mood : Option String) (rating : Option ℚ) (top_n : ℤ)
    (hsh : ∀ l, List.Perm (shuffle l) l)
    (htop : top_n < 0 ∨ (dataset.length : ℤ) < top_n) :
    recommend_movies score shuffle dataset genre mood rating top_n =
      (if (shuffle (applyRatingFilter rating (applyGenreFilter genre
            dataset))).filterMap (recProj score mood (moodPolarityOf score
            mood)) = []
       then RecResult.empty
       else RecResult.recs ((shuffle (applyRatingFilter rating
            (applyGenreFilter genre dataset))).filterMap
            (recProj score mood (moodPolarityOf score mood)))) := by
  have hlen : ((shuffle (applyRatingFilter rating (applyGenreFilter genre
      dataset))).length : ℤ) ≤ (dataset.length : ℤ) := by
    rw [(hsh _).length_eq]
    exact_mod_cast Nat.le_trans
      (length_applyRatingFilter_le rating _)
      (length_applyGenreFilter_le genre dataset)
  simp only [recommend_movies]
  rw [recLoop_eq_filterMap score mood (moodPolarityOf score mood) top_n
    (shuffle (applyRatingFilter rating (applyGenreFilter genre dataset))) 0
    (by omega)]

/-- Every pair of a successful `recommend_movies` result originates in a
dataset record that passed both filters and the per-record loop test. -/
lemma exists_record_of_recs (score : String → ℚ)
    (shuffle : List MovieRecord → List MovieRecord)
    (dataset : List MovieRecord) (genre : Option String)
    (mood : Option String) (rating : Option ℚ) (top_n : ℤ)
    (out : List (String × ℚ)) (p : String × ℚ)
    (hsh : ∀ l, List.Perm (shuffle l) l)
    (hout : recommend_movies score shuffle dataset genre mood rating top_n =
      RecResult.recs out)
    (hp : p ∈ out) :
    ∃ r, r ∈ dataset ∧ passesGenre genre r = true ∧
      passesRating rating r = true ∧ ∃ ov, r.overview = some ov ∧
      p = (r.title, score ov) ∧
      includeCond mood (moodPolarityOf score mood) (score ov) = true := by
  simp only [recommend_movies] at hout
  by_cases hnil : recLoop score mood (moodPolarityOf score mood) top_n 0
      (shuffle (applyRatingFilter rating (applyGenreFilter genre dataset))) = []
  · rw [if_pos hnil] at hout
    exact absurd hout (by simp)
  · rw [if_neg hnil] at hout
    have hout' := (RecResult.recs.injEq _ _).mp hout.symm
    rw [hout'] at hp
    obtain ⟨r, hrs, ov, hov, hpe, hinc⟩ :=
      exists_of_mem_recLoop score mood (moodPolarityOf score mood) top_n _ 0
        p hp
    have hrf := (hsh _).mem_iff.mp hrs
    obtain ⟨hrd, hpg, hpr⟩ := mem_filtered_iff.mp hrf
    exact ⟨r, hrd, hpg, hpr, ov, hov, hpe, hinc⟩

/-! ### Claim theorems -/

/-- Claim C3 (confirmed).  On the three-record scenario dataset, filtering
with genre `"Drama"` and minimum rating `7.6` and no mood returns, for
every shuffle order, exactly record A paired with the polarity of its
overview: B is removed by the genre and rating filters, and C, whose
Overview cell is empty and hence `NaN`, is skipped by the
`pd.isna(overview)` test, leaving only A eligible. -/
theorem claim_C3 (score : String → ℚ)
    (shuffle : List MovieRecord → List MovieRecord)
    (hsh : ∀ l, List.Perm (shuffle l) l) :
    recommend_movies score shuffle [dsA, dsB, dsC] (some "Drama") none
      (some (7.6 : ℚ)) 5 = RecResult.recs [("A", score "A sad story")] := by
  rw [recommend_movies_no_trunc score shuffle [dsA, dsB, dsC] (some "Drama")
    none (some (7.6 : ℚ)) 5 hsh (Or.inr (by norm_num))]
  have hg : applyGenreFilter (some "Drama") [dsA, dsB, dsC] = [dsA, dsC] := by
    decide
  have hfilt : applyRatingFilter (some (7.6 : ℚ))
      (applyGenreFilter (some "Drama") [dsA, dsB, dsC]) = [dsA, dsC] := by
    rw [hg]
    simp only [applyRatingFilter, truthyQ, dsA, dsC]
    norm_num [List.filter]
  rw [hfilt]
  have hmap : List.filterMap
      (recProj score none (moodPolarityOf score none)) [dsA, dsC] =
      [("A", score "A sad story")] := by
    simp [recProj, dsA, dsC, includeCond, truthy]
  have hperm := (hsh [dsA, dsC]).filterMap
    (recProj score none (moodPolarityOf score none))
  rw [hmap] at hperm
  rw [List.perm_singleton.mp hperm]
  simp

/-- Witness for C3 at a concrete sentiment model and the identity
shuffle. -/
theorem claim_C3_witness :
    recommend_movies (fun _ => (0 : ℚ)) id [dsA, dsB, dsC] (some "Drama")
      none (some (7.6 : ℚ)) 5 = RecResult.recs [("A", 0)] :=
  claim_C3 (fun _ => 0) id (fun l => List.Perm.refl l)

/-- Counterexample to claim C1 as stated: the claim asserts that a record
with a non-empty overview is included if and only if the mood sign
condition holds, for every call.  Here the mood is non-empty, the record
has a non-empty overview with polarity `0` (so the stated condition
holds), yet the call returns `EmptyResult`, because the record is removed
by the genre filter before the mood rule is ever consulted. -/
theorem claim_C1_cex :
    recommend_movies (fun _ => (0 : ℚ)) id
      [⟨"B", some "Comedy", some "w", 5⟩] (some "Drama") (some "x") none 5 =
      RecResult.empty ∧
    truthy (some "x") = true ∧
    (fun _ => (0 : ℚ)) "w" = (0 : ℚ) :=
  ⟨by decide, rfl, rfl⟩

/-- Claim C1, amended: among the records that survive the genre and rating
filters, and provided the limit causes no truncation (negative or larger
than the dataset), the result is exactly the shuffled filtered rows with a
present overview that satisfy: no mood filter active, or
`mood_polarity * polarity > 0`, or `polarity == 0` — with `mood_polarity`
computed once from the mood text (second conjunct). -/
theorem claim_C1_amended (score : String → ℚ)
    (shuffle : List MovieRecord → List MovieRecord)
    (dataset : List MovieRecord) (genre : Option String)
    (mood : Option String) (rating : Option ℚ) (top_n : ℤ)
    (hsh : ∀ l, List.Perm (shuffle l) l)
    (htop : top_n < 0 ∨ (dataset.length : ℤ) < top_n) :
    (recommend_movies score shuffle dataset genre mood rating top_n =
      (if (shuffle (applyRatingFilter rating (applyGenreFilter genre
            dataset))).filterMap (recProj score mood (moodPolarityOf score
            mood)) = []
       then RecResult.empty
       else RecResult.recs ((shuffle (applyRatingFilter rating
            (applyGenreFilter genre dataset))).filterMap
            (recProj score mood (moodPolarityOf score mood))))) ∧
    (∀ pol : ℚ, includeCond mood (moodPolarityOf score mood) pol = true ↔
      (truthy mood = false ∨ score (mood.getD "") * pol > 0 ∨ pol = 0)) := by
  refine ⟨recommend_movies_no_trunc score shuffle dataset genre mood rating
    top_n hsh htop, fun pol => ?_⟩
  cases hm : truthy mood with
  | false => simp [includeCond, hm]
  | true => simp [includeCond, moodPolarityOf, hm]

/-- Witness for the amended C1 at concrete inputs. -/
theorem claim_C1_witness :
    (recommend_movies (fun _ => (0 : ℚ)) id
        [⟨"B", some "Comedy", some "w", 5⟩] (some "Drama") (some "x") none
        5 =
      (if (id (applyRatingFilter none (applyGenreFilter (some "Drama")
            [⟨"B", some "Comedy", some "w", 5⟩]))).filterMap
            (recProj (fun _ => (0 : ℚ)) (some "x")
              (moodPolarityOf (fun _ => (0 : ℚ)) (some "x"))) = []
       then RecResult.empty
       else RecResult.recs ((id (applyRatingFilter none (applyGenreFilter
            (some "Drama") [⟨"B", some "Comedy", some "w", 5⟩]))).filterMap
            (recProj (fun _ => (0 : ℚ)) (some "x")
              (moodPolarityOf (fun _ => (0 : ℚ)) (some "x")))))) ∧
    (includeCond (some "x")
        (moodPolarityOf (fun _ => (0 : ℚ)) (some "x")) 0 = true ↔
      (truthy (some "x") = false ∨
        (fun _ => (0 : ℚ)) ((some "x").getD "") * 0 > 0 ∨ (0 : ℚ) = 0)) :=
  ⟨(claim_C1_amended (fun _ => (0 : ℚ)) id
      [⟨"B", some "Comedy", some "w", 5⟩] (some "Drama") (some "x") none 5
      (fun l => List.Perm.refl l) (Or.inr (by decide))).1,
   (claim_C1_amended (fun _ => (0 : ℚ)) id
      [⟨"B", some "Comedy", some "w", 5⟩] (some "Drama") (some "x") none 5
      (fun l => List.Perm.refl l) (Or.inr (by decide))).2 0⟩

/-- Counterexample to claim C4 as stated: the claim asserts inclusion
whenever either polarity is exactly neutral, in particular a record with
non-zero overview polarity when the mood polarity is zero.  Here the mood
polarity is `0` and the overview polarity is `1`, the record passes every
filter, yet the call returns `EmptyResult`: the code only lets a record
through when `mood_polarity * polarity > 0` or the OVERVIEW polarity is
zero, so `0 * 1 > 0` fails and `1 ≠ 0` fails. -/
theorem claim_C4_cex :
    recommend_movies (fun s => if s = "w" then (1 : ℚ) else 0) id
      [⟨"T", some "G", some "w", 5⟩] none (some "m") none 5 =
      RecResult.empty ∧
    (fun s => if s = "w" then (1 : ℚ) else 0) "m" = 0 ∧
    (fun s => if s = "w" then (1 : ℚ) else 0) "w" ≠ 0 := by
  refine ⟨?_, by decide, by decide⟩
  simp [recommend_movies, applyGenreFilter, applyRatingFilter, truthy,
    truthyQ, moodPolarityOf, recLoop, includeCond, Option.getD]

/-- Claim C4, amended: for a record surviving the genre and rating
filters, with a present overview and an active mood and no limit
truncation, the record is included whenever its overview polarity has the
same sign as the mood polarity or the OVERVIEW polarity is exactly zero;
when instead the mood polarity is zero and the overview polarity is not,
the per-record condition of line 76 rejects it. -/
theorem claim_C4_amended (score : String → ℚ)
    (shuffle : List MovieRecord → List MovieRecord)
    (dataset : List MovieRecord) (genre : Option String)
    (mood : Option String) (rating : Option ℚ) (top_n : ℤ)
    (hsh : ∀ l, List.Perm (shuffle l) l)
    (htop : top_n < 0 ∨ (dataset.length : ℤ) < top_n)
    (hm : truthy mood = true) (r : MovieRecord) (ov : String)
    (hr : r ∈ dataset) (hov : r.overview = some ov)
    (hpg : passesGenre genre r = true) (hpr : passesRating rating r = true) :
    ((score (mood.getD "") * score ov > 0 ∨ score ov = 0) →
      recommend_movies score shuffle dataset genre mood rating top_n =
        RecResult.recs ((shuffle (applyRatingFilter rating
          (applyGenreFilter genre dataset))).filterMap
          (recProj score mood (moodPolarityOf score mood))) ∧
      (r.title, score ov) ∈ (shuffle (applyRatingFilter rating
          (applyGenreFilter genre dataset))).filterMap
          (recProj score mood (moodPolarityOf score mood))) ∧
    (score (mood.getD "") = 0 → score ov ≠ 0 →
      includeCond mood (moodPolarityOf score mood) (score ov) = false) := by
  constructor
  · intro hcond
    have hinc : includeCond mood (moodPolarityOf score mood) (score ov) =
        true := by
      simp only [includeCond, moodPolarityOf, hm, if_pos, Bool.not_true,
        Bool.false_or, Bool.or_eq_true, decide_eq_true_iff]
      rcases hcond with h | h
      · exact Or.inl h
      · exact Or.inr h
    have hproj : recProj score mood (moodPolarityOf score mood) r =
        some (r.title, score ov) := by
      simp [recProj, hov, hinc]
    have hmemf : r ∈ applyRatingFilter rating (applyGenreFilter genre
        dataset) := mem_filtered_iff.mpr ⟨hr, hpg, hpr⟩
    have hmems : r ∈ shuffle (applyRatingFilter rating (applyGenreFilter
        genre dataset)) := (hsh _).mem_iff.mpr hmemf
    have hmem : (r.title, score ov) ∈ (shuffle (applyRatingFilter rating
        (applyGenreFilter genre dataset))).filterMap
        (recProj score mood (moodPolarityOf score mood)) :=
      List.mem_filterMap.mpr ⟨r, hmems, hproj⟩
    refine ⟨?_, hmem⟩
    rw [recommend_movies_no_trunc score shuffle dataset genre mood rating
      top_n hsh htop, if_neg (List.ne_nil_of_mem hmem)]
  · intro hz hnz
    simp [includeCond, moodPolarityOf, hm, hz, hnz]

/-- Witness for the amended C4 at concrete inputs: constant polarity `1`,
so the mood and overview polarities share a sign and the record is
returned. -/
theorem claim_C4_witness :
    ((fun _ => (1 : ℚ)) ((some "m").getD "") * (fun _ => (1 : ℚ)) "w" > 0 ∨
      (fun _ => (1 : ℚ)) "w" = 0) ∧
    (recommend_movies (fun _ => (1 : ℚ)) id [⟨"T", none, some "w", 5⟩] none
        (some "m") none 5 =
      RecResult.recs ((id (applyRatingFilter none (applyGenreFilter none
        [⟨"T", none, some "w", 5⟩]))).filterMap
        (recProj (fun _ => (1 : ℚ)) (some "m")
          (moodPolarityOf (fun _ => (1 : ℚ)) (some "m")))) ∧
      ("T", (fun _ => (1 : ℚ)) "w") ∈ (id (applyRatingFilter none
        (applyGenreFilter none [⟨"T", none, some "w", 5⟩]))).filterMap
        (recProj (fun _ => (1 : ℚ)) (some "m")
          (moodPolarityOf (fun _ => (1 : ℚ)) (some "m")))) :=
  ⟨Or.inl (by simp),
   (claim_C4_amended (fun _ => (1 : ℚ)) id [⟨"T", none, some "w", 5⟩] none
      (some "m") none 5 (fun l => List.Perm.refl l) (Or.inr (by decide))
      rfl ⟨"T", none, some "w", 5⟩ "w" (by decide) rfl (by decide)
      (by decide)).1 (Or.inl (by simp))⟩

/-- Counterexample to claim C2 as stated: with the empty string as the
genre constraint (a given constraint), Python `if genre:` is false, the
genre filter is skipped, and a record whose Genre cell is missing (`NaN`)
is returned — but a missing genre field does not contain the queried genre
as a substring (`str.contains` with `na=False` evaluates it to `False`). -/
theorem claim_C2_cex :
    recommend_movies (fun _ => (0 : ℚ)) id [⟨"N", none, some "w", 5⟩]
      (some "") none none 5 = RecResult.recs [("N", 0)] ∧
    genreMatch "" ⟨"N", none, some "w", 5⟩ = false :=
  ⟨by decide, rfl⟩

/-- Claim C2, amended: every pair of a returned result originates in a
dataset record that satisfies `rating >= min_rating` whenever a NON-ZERO
minimum rating is given, and whose genre field contains the queried genre
case-insensitively whenever a NON-EMPTY genre is given (Python truthiness
skips the filters for `0.0` and `""`). -/
theorem claim_C2_amended (score : String → ℚ)
    (shuffle : List MovieRecord → List MovieRecord)
    (dataset : List MovieRecord) (genre : Option String)
    (mood : Option String) (rating : Option ℚ) (top_n : ℤ)
    (out : List (String × ℚ)) (p : String × ℚ)
    (hsh : ∀ l, List.Perm (shuffle l) l)
    (hout : recommend_movies score shuffle dataset genre mood rating top_n =
      RecResult.recs out)
    (hp : p ∈ out) :
    ∃ r, r ∈ dataset ∧ r.title = p.1 ∧
      (∀ g : String, genre = some g → g ≠ "" → genreMatch g r = true) ∧
      (∀ q : ℚ, rating = some q → q ≠ 0 → q ≤ r.rating) := by
  obtain ⟨r, hrd, hpg, hpr, ov, hov, hpe, hinc⟩ :=
    exists_record_of_recs score shuffle dataset genre mood rating top_n out
      p hsh hout hp
  refine ⟨r, hrd, by rw [hpe], ?_, ?_⟩
  · intro g hg hgne
    rw [hg] at hpg
    have ht : truthy (some g) = true := by
      simp [truthy, hgne]
    simpa [passesGenre, ht] using hpg
  · intro q hq hqne
    rw [hq] at hpr
    have ht : truthyQ (some q) = true := by
      simp [truthyQ, hqne]
    simpa [passesRating, ht] using hpr

/-- Witness for the amended C2 at concrete inputs: an active genre and an
active minimum rating, both honoured by the returned record. -/
theorem claim_C2_witness :
    ∃ r, r ∈ [(⟨"N", some "Drama", some "w", 8⟩ : MovieRecord)] ∧
      r.title = ("N", (0 : ℚ)).1 ∧
      (∀ g : String, (some "Drama" : Option String) = some g → g ≠ "" →
        genreMatch g r = true) ∧
      (∀ q : ℚ, (some (8 : ℚ) : Option ℚ) = some q → q ≠ 0 →
        q ≤ r.rating) :=
  claim_C2_amended (fun _ => (0 : ℚ)) id [⟨"N", some "Drama", some "w", 8⟩]
    (some "Drama") none (some 8) 5 [("N", 0)] ("N", 0)
    (fun l => List.Perm.refl l) (by decide) (by decide)

/-- Claim C10 (confirmed).  With a non-empty genre constraint, records
whose Genre cell is missing are removed before the loop even runs
(`na=False` makes `str.contains` evaluate a missing cell to `False`), so
no returned pair originates in such a record; with no genre constraint the
genre filter leaves the dataset untouched, so such records are kept. -/
theorem claim_C10 (score : String → ℚ)
    (shuffle : List MovieRecord → List MovieRecord)
    (dataset : List MovieRecord) (mood : Option String) (rating : Option ℚ)
    (top_n : ℤ) (g : String) (hsh : ∀ l, List.Perm (shuffle l) l)
    (hg : g ≠ "") :
    (∀ r ∈ applyRatingFilter rating (applyGenreFilter (some g) dataset),
      r.genre ≠ none) ∧
    (∀ (out : List (String × ℚ)) (p : String × ℚ),
      recommend_movies score shuffle dataset (some g) mood rating top_n =
        RecResult.recs out → p ∈ out →
      ∃ r, r ∈ dataset ∧ r.title = p.1 ∧ r.genre ≠ none) ∧
    applyGenreFilter none dataset = dataset := by
  have ht : truthy (some g) = true := by simp [truthy, hg]
  have hmain : ∀ r : MovieRecord, passesGenre (some g) r = true →
      r.genre ≠ none := by
    intro r hpg
    simp only [passesGenre, ht, Bool.not_true, Bool.false_or] at hpg
    intro hnone
    rw [genreMatch, hnone] at hpg
    exact Bool.false_ne_true hpg
  refine ⟨?_, ?_, ?_⟩
  · intro r hr
    exact hmain r (mem_filtered_iff.mp hr).2.1
  · intro out p hout hp
    obtain ⟨r, hrd, hpg, _, _, _, hpe, _⟩ :=
      exists_record_of_recs score shuffle dataset (some g) mood rating top_n
        out p hsh hout hp
    exact ⟨r, hrd, by rw [hpe], hmain r hpg⟩
  · simp [applyGenreFilter, truthy]

/-- Witness for C10 at concrete inputs: one record with a missing genre
and one with genre Drama; with the non-empty constraint only the latter
survives the filters, and with no constraint the filter is the identity. -/
theorem claim_C10_witness :
    (∀ r ∈ applyRatingFilter none (applyGenreFilter (some "Drama")
      [(⟨"N", none, some "w", 5⟩ : MovieRecord),
       ⟨"D", some "Drama", some "w", 5⟩]), r.genre ≠ none) ∧
    (∀ (out : List (String × ℚ)) (p : String × ℚ),
      recommend_movies (fun _ => (0 : ℚ)) id
        [⟨"N", none, some "w", 5⟩, ⟨"D", some "Drama", some "w", 5⟩]
        (some "Drama") none none 5 = RecResult.recs out → p ∈ out →
      ∃ r, r ∈ [(⟨"N", none, some "w", 5⟩ : MovieRecord),
        ⟨"D", some "Drama", some "w", 5⟩] ∧ r.title = p.1 ∧
        r.genre ≠ none) ∧
    applyGenreFilter none
      [(⟨"N", none, some "w", 5⟩ : MovieRecord),
       ⟨"D", some "Drama", some "w", 5⟩] =
      [⟨"N", none, some "w", 5⟩, ⟨"D", some "Drama", some "w", 5⟩] :=
  claim_C10 (fun _ => (0 : ℚ)) id
    [⟨"N", none, some "w", 5⟩, ⟨"D", some "Drama", some "w", 5⟩] none none
    5 "Drama" (fun l => List.Perm.refl l) (by decide)

/-- Counterexample to claim C5 as stated: with limit `0`, record Y matches
every constraint (same mood sign), yet the call signals `EmptyResult`,
because the `break` test `len(recommendations) == top_n` fires at the end
of the first iteration (record X appends nothing and `0 == 0`) before Y is
ever examined. -/
theorem claim_C5_cex :
    recommend_movies (fun s => if s = "neg" then (1 : ℚ) else 0) id
      [⟨"X", none, some "neg", 5⟩, ⟨"Y", none, some "pos", 5⟩] none
      (some "m") none 0 = RecResult.empty ∧
    matchesConstraints (fun s => if s = "neg" then (1 : ℚ) else 0) none
      (some "m") none ⟨"Y", none, some "pos", 5⟩ = true ∧
    (⟨"Y", none, some "pos", 5⟩ : MovieRecord) ∈
      [(⟨"X", none, some "neg", 5⟩ : MovieRecord),
       ⟨"Y", none, some "pos", 5⟩] := by
  refine ⟨?_, ?_, by decide⟩
  · have hmp : moodPolarityOf (fun s => if s = "neg" then (1 : ℚ) else 0)
        (some "m") = some 0 := by
      simp [moodPolarityOf, truthy]
    have hloop : recLoop (fun s => if s = "neg" then (1 : ℚ) else 0)
        (some "m") (some 0) 0 0
        [⟨"X", none, some "neg", 5⟩, ⟨"Y", none, some "pos", 5⟩] = [] := by
      simp [recLoop, includeCond, truthy]
    simp only [recommend_movies, applyGenreFilter, applyRatingFilter,
      truthy, truthyQ, hmp]
    simp [hloop]
  · simp [matchesConstraints, passesGenre, passesRating, recProj,
      includeCond, moodPolarityOf, truthy, truthyQ]

/-- Claim C5, amended: for every NON-ZERO limit, the call signals
`EmptyResult` exactly when no dataset record matches the constraints, and
a successful result is never the empty sequence. -/
theorem claim_C5_amended (score : String → ℚ)
    (shuffle : List MovieRecord → List MovieRecord)
    (dataset : List MovieRecord) (genre : Option String)
    (mood : Option String) (rating : Option ℚ) (top_n : ℤ)
    (hsh : ∀ l, List.Perm (shuffle l) l) (hn : top_n ≠ 0) :
    (recommend_movies score shuffle dataset genre mood rating top_n =
        RecResult.empty ↔
      ∀ r ∈ dataset,
        matchesConstraints score genre mood rating r = false) ∧
    (∀ out : List (String × ℚ),
      recommend_movies score shuffle dataset genre mood rating top_n =
        RecResult.recs out → out ≠ []) := by
  simp only [recommend_movies]
  set L := recLoop score mood (moodPolarityOf score mood) top_n 0
    (shuffle (applyRatingFilter rating (applyGenreFilter genre dataset)))
    with hL
  constructor
  · have hnil : L = [] ↔ ∀ r ∈ shuffle (applyRatingFilter rating
        (applyGenreFilter genre dataset)),
        recProj score mood (moodPolarityOf score mood) r = none := by
      rw [hL]
      exact recLoop_eq_nil_iff score mood (moodPolarityOf score mood) hn _
    have hiff : (if L = [] then RecResult.empty else RecResult.recs L) =
        RecResult.empty ↔ L = [] := by
      by_cases h : L = []
      · simp [h]
      · simp [h]
    rw [hiff, hnil]
    constructor
    · intro hall r hr
      by_cases hpass : passesGenre genre r = true ∧ passesRating rating r = true
      · have hrf : r ∈ applyRatingFilter rating (applyGenreFilter genre
            dataset) := mem_filtered_iff.mpr ⟨hr, hpass.1, hpass.2⟩
        have := hall r ((hsh _).mem_iff.mpr hrf)
        simp [matchesConstraints, this, hpass.1, hpass.2]
      · rcases not_and_or.mp hpass with h | h <;>
          simp only [Bool.not_eq_true] at h <;>
          simp [matchesConstraints, h]
    · intro hall r hr
      have hrf := (hsh _).mem_iff.mp hr
      obtain ⟨hrd, hpg, hpr⟩ := mem_filtered_iff.mp hrf
      have := hall r hrd
      simp only [matchesConstraints, hpg, hpr, Bool.true_and,
        Bool.and_eq_false_imp] at this
      cases hproj : recProj score mood (moodPolarityOf score mood) r with
      | none => rfl
      | some v =>
        rw [hproj] at this
        simp at this
  · intro out hout
    by_cases h : L = []
    · rw [if_pos h] at hout
      exact absurd hout (by simp)
    · rw [if_neg h] at hout
      have := (RecResult.recs.injEq _ _).mp hout
      rw [← this]
      exact h

/-- Witness for the amended C5 at concrete inputs: a record with a missing
overview matches nothing, so the call signals `EmptyResult`. -/
theorem claim_C5_witness :
    (recommend_movies (fun _ => (0 : ℚ)) id
        [⟨"E", some "Drama", none, 5⟩] none none none 5 =
        RecResult.empty ↔
      ∀ r ∈ [(⟨"E", some "Drama", none, 5⟩ : MovieRecord)],
        matchesConstraints (fun _ => (0 : ℚ)) none none none r = false) ∧
    (∀ out : List (String × ℚ),
      recommend_movies (fun _ => (0 : ℚ)) id
        [⟨"E", some "Drama", none, 5⟩] none none none 5 =
        RecResult.recs out → out ≠ []) :=
  claim_C5_amended (fun _ => (0 : ℚ)) id [⟨"E", some "Drama", none, 5⟩]
    none none none 5 (fun l => List.Perm.refl l) (by decide)

/-- Counterexample to claim C6 as stated: with limit `0` the loop appends
the first eligible record, after which `len(recommendations)` is `1` and
the `== 0` test can never fire again, so the call returns one
recommendation — more than the limit. -/
theorem claim_C6_cex :
    recommend_movies (fun _ => (1 : ℚ)) id [⟨"Y", none, some "pos", 5⟩]
      none none none 0 = RecResult.recs [("Y", 1)] ∧
    ¬ (([(("Y", (1 : ℚ)))].length : ℤ) ≤ 0) :=
  ⟨by decide, by decide⟩

/-- Claim C6, amended: for every POSITIVE limit, the returned sequence
contains at most `top_n` recommendations (the equality test `==` only
stops the loop when the count can actually reach the limit). -/
theorem claim_C6_amended (score : String → ℚ)
    (shuffle : List MovieRecord → List MovieRecord)
    (dataset : List MovieRecord) (genre : Option String)
    (mood : Option String) (rating : Option ℚ) (top_n : ℤ)
    (h1 : 1 ≤ top_n) :
    ∀ out : List (String × ℚ),
      recommend_movies score shuffle dataset genre mood rating top_n =
        RecResult.recs out → (out.length : ℤ) ≤ top_n := by
  intro out hout
  simp only [recommend_movies] at hout
  by_cases h : recLoop score mood (moodPolarityOf score mood) top_n 0
      (shuffle (applyRatingFilter rating (applyGenreFilter genre
        dataset))) = []
  · rw [if_pos h] at hout
    exact absurd hout (by simp)
  · rw [if_neg h] at hout
    have := (RecResult.recs.injEq _ _).mp hout
    rw [← this]
    have hb := recLoop_length_le score mood (moodPolarityOf score mood)
      top_n (shuffle (applyRatingFilter rating (applyGenreFilter genre
        dataset))) 0 (by omega)
    omega

/-- Witness for the amended C6 at concrete inputs: limit `1` on a
one-record dataset returns exactly one recommendation. -/
theorem claim_C6_witness :
    ([(("Y", (1 : ℚ)))].length : ℤ) ≤ 1 :=
  claim_C6_amended (fun _ => (1 : ℚ)) id [⟨"Y", none, some "pos", 5⟩] none
    none none 1 (by decide) [("Y", 1)] (by decide)

/-! ### Character-level lemmas for case mapping -/

/-- Packing a valid code point and reading it back. -/
lemma char_toNat_ofNat {n : Nat} (h : n.isValidChar) :
    (Char.ofNat n).toNat = n := by
  rw [Char.ofNat, dif_pos h]
  rfl

/-- Arithmetic description of `Char.toLower`. -/
lemma toLower_toNat (c : Char) :
    (Char.toLower c).toNat =
      if 65 ≤ c.toNat ∧ c.toNat ≤ 90 then c.toNat + 32 else c.toNat := by
  simp only [Char.toLower]
  by_cases h : 65 ≤ c.toNat ∧ c.toNat ≤ 90
  · rw [if_pos h, if_pos h]
    exact char_toNat_ofNat (Or.inl (by omega))
  · rw [if_neg h, if_neg h]

/-- Arithmetic description of `Char.toUpper`. -/
lemma toUpper_toNat (c : Char) :
    (Char.toUpper c).toNat =
      if 97 ≤ c.toNat ∧ c.toNat ≤ 122 then c.toNat - 32 else c.toNat := by
  simp only [Char.toUpper]
  by_cases h : 97 ≤ c.toNat ∧ c.toNat ≤ 122
  · rw [if_pos h, if_pos h]
    exact char_toNat_ofNat (Or.inl (by omega))
  · rw [if_neg h, if_neg h]

/-- Code points are injective. -/
lemma char_toNat_inj {c₁ c₂ : Char} (h : c₁.toNat = c₂.toNat) : c₁ = c₂ := by
  have h2 := congrArg Char.ofNat h
  rwa [Char.ofNat_toNat, Char.ofNat_toNat] at h2

/-- Two characters with the same lower-cased form have the same upper-cased
form and the same letter status. -/
lemma of_toLower_eq {c₁ c₂ : Char} (h : Char.toLower c₁ = Char.toLower c₂) :
    Char.toUpper c₁ = Char.toUpper c₂ ∧
      isAsciiLetter c₁ = isAsciiLetter c₂ := by
  have hn := congrArg Char.toNat h
  rw [toLower_toNat, toLower_toNat] at hn
  constructor
  · apply char_toNat_inj
    rw [toUpper_toNat, toUpper_toNat]
    split_ifs at hn ⊢ <;> omega
  · simp only [isAsciiLetter, decide_eq_decide]
    split_ifs at hn <;> omega

/-- Lower-casing is idempotent. -/
lemma toLower_toLower (c : Char) :
    Char.toLower (Char.toLower c) = Char.toLower c := by
  apply char_toNat_inj
  simp only [toLower_toNat]
  split_ifs <;> omega

/-- Lower-casing after upper-casing is plain lower-casing. -/
lemma toLower_toUpper (c : Char) :
    Char.toLower (Char.toUpper c) = Char.toLower c := by
  apply char_toNat_inj
  simp only [toLower_toNat, toUpper_toNat]
  split_ifs <;> omega

/-- Title-casing only looks at characters up to case. -/
lemma titleCaseAux_congr :
    ∀ (l₁ l₂ : List Char) (b : Bool),
      l₁.map Char.toLower = l₂.map Char.toLower →
      titleCaseAux b l₁ = titleCaseAux b l₂ := by
  intro l₁
  induction l₁ with
  | nil =>
    intro l₂ b h
    cases l₂ with
    | nil => rfl
    | cons c cs => simp at h
  | cons c cs ih =>
    intro l₂ b h
    cases l₂ with
    | nil => simp at h
    | cons d ds =>
      simp only [List.map_cons, List.cons.injEq] at h
      obtain ⟨hups, hletter⟩ := of_toLower_eq h.1
      simp only [titleCaseAux, hletter]
      by_cases hl : isAsciiLetter d = true
      · rw [if_pos hl, if_pos hl]
        cases b with
        | true => simp [h.1, ih ds true h.2]
        | false => simp [hups, ih ds true h.2]
      · rw [if_neg hl, if_neg hl]
        have hcl : isAsciiLetter c ≠ true := by rw [hletter]; exact hl
        have hc65 : ¬(65 ≤ c.toNat ∧ c.toNat ≤ 90) := fun hc =>
          hcl (by simp only [isAsciiLetter, decide_eq_true_eq]
                  exact Or.inl hc)
        have hd65 : ¬(65 ≤ d.toNat ∧ d.toNat ≤ 90) := fun hd =>
          hl (by simp only [isAsciiLetter, decide_eq_true_eq]
                 exact Or.inl hd)
        have hn := congrArg Char.toNat h.1
        rw [toLower_toNat, toLower_toNat, if_neg hc65, if_neg hd65] at hn
        rw [char_toNat_inj hn, ih ds false h.2]

/-- Lower-casing a title-cased list gives the lower-cased list. -/
lemma map_toLower_titleCaseAux :
    ∀ (l : List Char) (b : Bool),
      (titleCaseAux b l).map Char.toLower = l.map Char.toLower := by
  intro l
  induction l with
  | nil => intro b; rfl
  | cons c cs ih =>
    intro b
    simp only [titleCaseAux]
    by_cases hl : isAsciiLetter c = true
    · rw [if_pos hl]
      cases b with
      | true => simp [List.map_cons, toLower_toLower, ih true]
      | false => simp [List.map_cons, toLower_toUpper, ih true]
    · rw [if_neg hl]
      simp [List.map_cons, ih false]

/-- Strings with the same lower-cased form have the same title-cased
form. -/
lemma pyTitle_congr {s t : String} (h : lowerStr s = lowerStr t) :
    pyTitle s = pyTitle t := by
  have hdata : s.data.map Char.toLower = t.data.map Char.toLower := by
    have := congrArg String.data h
    simpa [lowerStr] using this
  simp only [pyTitle]
  rw [titleCaseAux_congr s.data t.data false hdata]

/-- Title-casing does not change a string up to case. -/
lemma lowerStr_pyTitle (s : String) : lowerStr (pyTitle s) = lowerStr s := by
  simp only [lowerStr, pyTitle]
  rw [map_toLower_titleCaseAux]

/-- A round of the rating prompt only accepts `skip` (lower-cased) or an
in-range parsed float. -/
lemma ratingStep_sound (parseFloat : String → Option ℚ) (raw : String)
    (res : Option ℚ) (h : ratingStep parseFloat raw = some res) :
    res = none ∨ ∃ r, res = some r ∧ (7.6 : ℚ) ≤ r ∧ r ≤ (9.3 : ℚ) := by
  simp only [ratingStep] at h
  by_cases hskip : lowerStr (pyStrip raw) = "skip"
  · rw [if_pos hskip] at h
    exact Or.inl (Option.some.injEq _ _ ▸ (h.symm ▸ rfl))
  · rw [if_neg hskip] at h
    cases hp : parseFloat (pyStrip raw) with
    | none =>
      simp only [hp] at h
      exact Option.noConfusion h
    | some r =>
      simp only [hp] at h
      by_cases hr : (7.6 : ℚ) ≤ r ∧ r ≤ (9.3 : ℚ)
      · rw [if_pos hr] at h
        exact Or.inr ⟨r, by simpa using h.symm, hr.1, hr.2⟩
      · rw [if_neg hr] at h
        exact absurd h (by simp)

/-- Counterexample to claim C8 as stated: the input `"SKIP"` is not the
literal `"skip"` and is non-numeric (`float` raises `ValueError`), yet the
prompt accepts it and terminates with no rating constraint, because line
140 lower-cases the stripped input before comparing. -/
theorem claim_C8_cex :
    ratingStep (fun _ => none) "SKIP" = some none ∧
    pyStrip "SKIP" ≠ "skip" ∧
    (fun _ => (none : Option ℚ)) (pyStrip "SKIP") = none :=
  ⟨by decide, by decide, rfl⟩

/-- Claim C8, amended: the rating prompt terminates only by accepting
`skip` — compared case-insensitively after stripping — or a parsed float
in `[7.6, 9.3]`; every other input makes the loop re-prompt, so an
accepted rating constraint is always either absent or within
`[7.6, 9.3]`. -/
theorem claim_C8_amended (parseFloat : String → Option ℚ) :
    (∀ (inputs : List String) (res : Option ℚ),
      collectRating parseFloat inputs = some res →
      res = none ∨ ∃ r, res = some r ∧ (7.6 : ℚ) ≤ r ∧ r ≤ (9.3 : ℚ)) ∧
    (∀ raw, (∃ res, ratingStep parseFloat raw = some res) ↔
      (lowerStr (pyStrip raw) = "skip" ∨
        ∃ r, parseFloat (pyStrip raw) = some r ∧ (7.6 : ℚ) ≤ r ∧
          r ≤ (9.3 : ℚ))) ∧
    (∀ (raw : String) (rest : List String),
      ratingStep parseFloat raw = none →
      collectRating parseFloat (raw :: rest) =
        collectRating parseFloat rest) := by
  refine ⟨?_, ?_, ?_⟩
  · intro inputs
    induction inputs with
    | nil => intro res h; simp [collectRating] at h
    | cons raw rest ih =>
      intro res h
      simp only [collectRating] at h
      cases hs : ratingStep parseFloat raw with
      | none => rw [hs] at h; exact ih res h
      | some res' =>
        rw [hs] at h
        simp only [Option.some.injEq] at h
        rw [← h]
        exact ratingStep_sound parseFloat raw res' hs
  · intro raw
    constructor
    · rintro ⟨res, hres⟩
      simp only [ratingStep] at hres
      by_cases hskip : lowerStr (pyStrip raw) = "skip"
      · exact Or.inl hskip
      · rw [if_neg hskip] at hres
        cases hp : parseFloat (pyStrip raw) with
        | none =>
          simp only [hp] at hres
          exact Option.noConfusion hres
        | some r =>
          by_cases hr : (7.6 : ℚ) ≤ r ∧ r ≤ (9.3 : ℚ)
          · exact Or.inr ⟨r, rfl, hr.1, hr.2⟩
          · simp only [hp, if_neg hr] at hres
            exact Option.noConfusion hres
    · rintro (hskip | ⟨r, hp, h1, h2⟩)
      · exact ⟨none, by simp [ratingStep, hskip]⟩
      · by_cases hskip : lowerStr (pyStrip raw) = "skip"
        · exact ⟨none, by simp [ratingStep, hskip]⟩
        · exact ⟨some r, by simp [ratingStep, hskip, hp, h1, h2]⟩
  · intro raw rest h
    simp only [collectRating, h]

/-- Witness for the amended C8: `"skip"` is accepted with no rating
constraint, and the out-of-range scenario input `"9.5"` (here rejected by
the parse) makes the loop move on to the next input line. -/
theorem claim_C8_witness :
    ((none : Option ℚ) = none ∨
      ∃ r, (none : Option ℚ) = some r ∧ (7.6 : ℚ) ≤ r ∧ r ≤ (9.3 : ℚ)) ∧
    collectRating (fun _ => none) ["9.5", "skip"] =
      collectRating (fun _ => none) ["skip"] :=
  ⟨(claim_C8_amended (fun _ => none)).1 ["skip"] none (by decide),
   (claim_C8_amended (fun _ => none)).2.2 "9.5" ["skip"] (by decide)⟩

/-- Counterexample to claim C9 as stated: with catalog `["DRAMA"]`, the
input `"drama"` equals the catalog entry up to letter case, but the prompt
rejects it and re-prompts: line 119 compares `genre_input.title()` —
`"Drama"` — for exact membership, and `"Drama" ∈ ["DRAMA"]` fails. -/
theorem claim_C9_cex :
    genreStep ["DRAMA"] "drama" = none ∧
    "DRAMA" ∈ ["DRAMA"] ∧
    lowerStr "drama" = lowerStr "DRAMA" ∧
    pyStrip "drama" = "drama" :=
  ⟨by decide, by decide, by decide, by decide⟩

/-- Claim C9, amended: the genre prompt accepts exactly a 1-based index
into the catalog or an input whose `title()`-cased form is a catalog entry
(hence a case-insensitive match of that entry); every other input makes
the loop re-prompt.  An input equal to a catalog entry up to letter case
is accepted, and yields that entry, provided the entry is itself in title
case and the input is not captured by the index branch. -/
theorem claim_C9_amended (genres : List String) :
    (∀ (raw : String) (g : String), genreStep genres raw = some g →
      (isDigitStr (pyStrip raw) = true ∧
        1 ≤ digitsToNat (pyStrip raw).data ∧
        digitsToNat (pyStrip raw).data ≤ genres.length ∧
        g = genres.getD (digitsToNat (pyStrip raw).data - 1) "") ∨
      (g ∈ genres ∧ g = pyTitle (pyStrip raw) ∧
        lowerStr g = lowerStr (pyStrip raw))) ∧
    (∀ (raw : String) (rest : List String), genreStep genres raw = none →
      collectGenre genres (raw :: rest) = collectGenre genres rest) ∧
    (∀ g, g ∈ genres → pyTitle g = g →
      ∀ raw : String, lowerStr (pyStrip raw) = lowerStr g →
      ¬(isDigitStr (pyStrip raw) = true ∧
        1 ≤ digitsToNat (pyStrip raw).data ∧
        digitsToNat (pyStrip raw).data ≤ genres.length) →
      genreStep genres raw = some g) := by
  refine ⟨?_, ?_, ?_⟩
  · intro raw g h
    simp only [genreStep] at h
    by_cases hd : isDigitStr (pyStrip raw) = true ∧
        1 ≤ digitsToNat (pyStrip raw).data ∧
        digitsToNat (pyStrip raw).data ≤ genres.length
    · rw [if_pos hd] at h
      simp only [Option.some.injEq] at h
      exact Or.inl ⟨hd.1, hd.2.1, hd.2.2, h.symm⟩
    · rw [if_neg hd] at h
      by_cases hc : genres.contains (pyTitle (pyStrip raw)) = true
      · rw [if_pos hc] at h
        simp only [Option.some.injEq] at h
        refine Or.inr ⟨?_, h.symm, ?_⟩
        · rw [h] at hc
          exact List.elem_iff.mp hc
        · rw [← h]
          exact lowerStr_pyTitle (pyStrip raw)
      · rw [if_neg hc] at h
        exact absurd h (by simp)
  · intro raw rest h
    simp only [collectGenre, h]
  · intro g hg hgt raw hlow hnidx
    simp only [genreStep]
    rw [if_neg hnidx]
    have htitle : pyTitle (pyStrip raw) = g := by
      rw [pyTitle_congr hlow, hgt]
    rw [htitle, if_pos (List.elem_iff.mpr hg)]

/-- Witness for the amended C9: `"drama"` is accepted against the
title-cased catalog entry `"Drama"`, and the rejected input `"nope"`
makes the loop move on to the next input line. -/
theorem claim_C9_witness :
    genreStep ["Drama"] "drama" = some "Drama" ∧
    collectGenre ["Drama"] ["nope", "drama"] =
      collectGenre ["Drama"] ["drama"] :=
  ⟨(claim_C9_amended ["Drama"]).2.2 "Drama" (by decide) (by decide) "drama"
      (by decide) (by decide),
   (claim_C9_amended ["Drama"]).2.1 "nope" ["drama"] (by decide)⟩

/-- The Python split always yields at least one piece; the first piece is
a prefix of the input and every later piece is a contiguous substring. -/
lemma splitCommaSpace_spec (l : List Char) :
    ∃ p ps, splitCommaSpace l = p :: ps ∧ p <+: l ∧ ∀ q ∈ ps, q <:+: l := by
  induction l using splitCommaSpace.induct with
  | case1 => exact ⟨[], [], rfl, List.nil_prefix, by simp⟩
  | case2 rest ih =>
    obtain ⟨p, ps, h1, h2, h3⟩ := ih
    have hsfx : rest <:+ (',' :: ' ' :: rest) := ⟨[',', ' '], rfl⟩
    refine ⟨[], p :: ps, ?_, List.nil_prefix, ?_⟩
    · rw [splitCommaSpace, h1]
    · intro q hq
      rcases List.mem_cons.mp hq with rfl | hq'
      · exact h2.isInfix.trans hsfx.isInfix
      · exact (h3 q hq').trans hsfx.isInfix
  | case3 c rest hne h0 ih =>
    obtain ⟨p, ps, h1, _, _⟩ := ih
    rw [h0] at h1
    exact absurd h1 (by simp)
  | case4 c rest hne p ps h0 ih =>
    obtain ⟨p', ps', h1, h2, h3⟩ := ih
    rw [h0] at h1
    injection h1 with hpe hpse
    subst hpe
    subst hpse
    have hsfx : rest <:+ (c :: rest) := ⟨[c], rfl⟩
    have heq : splitCommaSpace (c :: rest) = (c :: p) :: ps := by
      rw [splitCommaSpace.eq_def]
      split
      · rename_i hm
        exact absurd hm (by simp)
      · rename_i rest1 hm
        injection hm with hc hm2
        exact (hne rest1 hc hm2).elim
      · rename_i c0 rest0 hm0 hm
        injection hm with hc0 hr0
        rw [← hr0, h0]
        rw [hc0]
    refine ⟨c :: p, ps, heq, List.cons_prefix_cons.mpr ⟨rfl, h2⟩, ?_⟩
    intro q hq
    exact (h3 q hq).trans hsfx.isInfix

/-- Every piece of the Python split is a contiguous substring of the
input. -/
lemma mem_splitCommaSpace_substring {l p : List Char}
    (h : p ∈ splitCommaSpace l) : p <:+: l := by
  obtain ⟨p0, ps, heq, hpre, hinf⟩ := splitCommaSpace_spec l
  rw [heq] at h
  rcases List.mem_cons.mp h with rfl | hmem
  · exact hpre.isInfix
  · exact hinf p hmem

/-- Stripping yields a contiguous substring of the input. -/
lemma trimChars_substring (l : List Char) : trimChars l <:+: l := by
  have h1 : l.dropWhile Char.isWhitespace <:+ l := List.dropWhile_suffix _
  have h2 : (l.dropWhile Char.isWhitespace).reverse.dropWhile
      Char.isWhitespace <:+ (l.dropWhile Char.isWhitespace).reverse :=
    List.dropWhile_suffix _
  have h3 : trimChars l <+: l.dropWhile Char.isWhitespace := by
    rw [← List.reverse_suffix]
    simpa [trimChars] using h2
  exact h3.isInfix.trans h1.isInfix

/-- Claim C7 (confirmed).  The genre catalog is lexicographically sorted
with no duplicates, and every entry — a stripped piece of a `", "`-split —
appears verbatim (as a contiguous substring) in the genre field of some
record; records with a missing genre contribute nothing (`dropna`). -/
theorem claim_C7 (df : List MovieRecord) :
    List.Sorted (· ≤ ·) (list_genres df) ∧
    (list_genres df).Nodup ∧
    (∀ g ∈ list_genres df, ∃ r, r ∈ df ∧ ∃ s, r.genre = some s ∧
      g.data <:+: s.data) := by
  refine ⟨List.sorted_insertionSort _ _, ?_, ?_⟩
  · exact ((List.perm_insertionSort _ _).nodup_iff).mpr (List.nodup_dedup _)
  · intro g hg
    rw [list_genres, List.mem_insertionSort, List.mem_dedup,
      List.mem_flatMap] at hg
    obtain ⟨s, hs, hgs⟩ := hg
    rw [List.mem_map] at hgs
    obtain ⟨pp, hpp, hge⟩ := hgs
    rw [List.mem_filterMap] at hs
    obtain ⟨r, hr, hrg⟩ := hs
    refine ⟨r, hr, s, hrg, ?_⟩
    rw [← hge]
    exact (trimChars_substring pp).trans (mem_splitCommaSpace_substring hpp)

/-- Witness for C7 at the scenario dataset. -/
theorem claim_C7_witness :
    List.Sorted (· ≤ ·) (list_genres [dsA, dsB, dsC]) ∧
    (list_genres [dsA, dsB, dsC]).Nodup ∧
    (∀ g ∈ list_genres [dsA, dsB, dsC], ∃ r, r ∈ [dsA, dsB, dsC] ∧
      ∃ s, r.genre = some s ∧ g.data <:+: s.data) :=
  claim_C7 [dsA, dsB, dsC]

end MovieRec
